import Mathlib

/-!
Verification of the tablerepair-web audit and repair core.

Shallow embedding of the TypeScript sources:
* audit service (`checkLatexBalance`, `buildGrid`, `analyzeTable`)
* repair service (`calculateCost`, `getNextKey`, `repairTableWithGemini`,
  `countExpectedCols`)
* repair worker (`domReplace`, retry scheduling)

JavaScript strings are modelled through their character lists; the regular
expressions of the sources are translated into explicit character scans.
-/

namespace TR

/-! ### JS string primitives -/

/-- Whitespace class of JS `\s` and `String.prototype.trim` (ASCII part plus
NBSP, which jsdom text can contain). -/
def jsWhitespace (c : Char) : Bool :=
  c = ' ' || c = '\t' || c = '\n' || c = '\r' || c = '\x0b' || c = '\x0c' || c = ' '

/-- JS `String.prototype.trim`. -/
def jsTrim (s : String) : String :=
  ⟨((s.data.dropWhile jsWhitespace).reverse.dropWhile jsWhitespace).reverse⟩

/-- Case folding of one character: ASCII plus the accented letters appearing
in the audit patterns. -/
def jsCharLower (c : Char) : Char :=
  if c = 'É' then 'é' else if c = 'Á' then 'á' else if c = 'Í' then 'í'
  else if c = 'Ó' then 'ó' else if c = 'Ú' then 'ú' else if c = 'Ç' then 'ç'
  else if c = 'Ã' then 'ã' else if c = 'Õ' then 'õ' else if c = 'Ê' then 'ê'
  else if c = 'Ô' then 'ô' else if c = 'À' then 'à' else c.toLower

/-- JS `String.prototype.toLowerCase` on the character range the audited
texts use. -/
def jsLower (s : String) : String := ⟨s.data.map jsCharLower⟩

/-- Is `pat` the prefix of `hay` starting at index `i`? -/
def subAt (pat hay : List Char) (i : Nat) : Bool := pat.isPrefixOf (hay.drop i)

/-- All candidate start indices of a string of length `n`. -/
def idxCandidates (hay : List Char) : List Nat := List.range (hay.length + 1)

/-- JS `String.prototype.includes`: does `pat` occur somewhere in `hay`? -/
def containsSub (hay pat : List Char) : Bool :=
  (idxCandidates hay).any (subAt pat hay)

/-- `containsSub` on strings. -/
def strContainsSub (hay pat : String) : Bool := containsSub hay.data pat.data

/-- JS `String.prototype.startsWith`. -/
def strStartsWith (s pat : String) : Bool := pat.data.isPrefixOf s.data

/-- JS `String.prototype.endsWith`. -/
def strEndsWith (s pat : String) : Bool := pat.data.reverse.isPrefixOf s.data.reverse

/-- First index at which `pat` occurs in `hay`. -/
def firstIdxOfSub (hay pat : List Char) : Option Nat :=
  (idxCandidates hay).find? (subAt pat hay)

/-- Last index at which `pat` occurs in `hay`. -/
def lastIdxOfSub (hay pat : List Char) : Option Nat :=
  ((idxCandidates hay).filter (subAt pat hay)).getLast?

/-! ### `checkLatexBalance` (auditService, part_002 lines 80-106) -/

/-- Test of `/^[RU]?\$\s*[\d.,]/`: an optional `R` or `U`, a dollar sign,
whitespace, then a digit, dot or comma. -/
def currencyStartTest (s : String) : Bool :=
  let afterDollar : List Char → Bool := fun cs =>
    match cs.dropWhile jsWhitespace with
    | [] => false
    | c :: _ => c.isDigit || c = '.' || c = ','
  match s.data with
  | '$' :: rest => afterDollar rest
  | 'R' :: '$' :: rest => afterDollar rest
  | 'U' :: '$' :: rest => afterDollar rest
  | _ => false

/-- Test of `/R\$/`. -/
def rDollarTest (s : String) : Bool := strContainsSub s "R$"

/-- Test of `/^\$[^$]*\\[a-zA-Z]/`: starts with `$` and a backslash-letter
pair occurs before any further `$`. -/
def dollarThenCommandAux : List Char → Bool
  | [] => false
  | '$' :: _ => false
  | '\\' :: c :: rest => c.isAlpha || dollarThenCommandAux (c :: rest)
  | _ :: rest => dollarThenCommandAux rest

/-- `/^\$[^$]*\\[a-zA-Z]/` on a whole string. -/
def dollarThenCommandTest (s : String) : Bool :=
  match s.data with
  | '$' :: rest => dollarThenCommandAux rest
  | _ => false

/-- `(trimmed.match(/\$/g) || []).length`. -/
def dollarCount (s : String) : Nat := s.data.countP (fun c => c = '$')

/-- Test of `/\\(frac|sqrt|vec|sum|int|prod|alpha|beta|gamma|delta|sigma|omega|theta|phi|text)\{/`. -/
def latexMacroBraceTest (s : String) : Bool :=
  ["\\frac\x7b", "\\sqrt\x7b", "\\vec\x7b", "\\sum\x7b", "\\int\x7b", "\\prod\x7b",
   "\\alpha\x7b", "\\beta\x7b", "\\gamma\x7b", "\\delta\x7b", "\\sigma\x7b",
   "\\omega\x7b", "\\theta\x7b", "\\phi\x7b", "\\text\x7b"].any
    (fun p => strContainsSub s p)

/-- Result record of `checkLatexBalance`. -/
structure LatexCheck where
  broken : Bool
  reason : String
deriving DecidableEq

/-- `checkLatexBalance` from the audit service, translated branch by branch. -/
def checkLatexBalance (text : String) : LatexCheck :=
  let trimmed := jsTrim text
  if trimmed.length < 3 then ⟨false, ""⟩
  else if currencyStartTest trimmed || rDollarTest trimmed then ⟨false, ""⟩
  else if trimmed = "\x7b" || trimmed = "\x7d" || trimmed = "$" ||
          trimmed = "($" || trimmed = "$)" then ⟨true, "Orphan symbol"⟩
  else if dollarThenCommandTest trimmed && dollarCount trimmed == 1 then
    ⟨true, "Starts with $ but unclosed"⟩
  else if latexMacroBraceTest trimmed && !(trimmed.data.contains '$') then
    ⟨true, "LaTeX command without $"⟩
  else ⟨false, ""⟩

/-! ### Grid Builder (auditService, part_002 lines 127-250)

The jsdom layer is abstracted: a parsed cell carries its tag kind, the parsed
integer value of its `colspan` / `rowspan` / `style` attributes (`none` when
the attribute is absent or unparsable), its `textContent`, its `innerHTML`,
and whether it contains a media element
(`img, svg, canvas, video, audio, iframe, math`). -/

structure DomCell where
  isTh : Bool := false
  colspanAttr : Option Int := none
  rowspanAttr : Option Int := none
  styleAttr : Option String := none
  text : String := ""
  innerHTML : String := ""
  hasMediaEl : Bool := false
deriving DecidableEq

/-- `safeInt` of the audit service: `parseInt` failure or a value below 1
falls back to 1. -/
def safeInt : Option Int → Nat
  | none => 1
  | some n => if n < 1 then 1 else n.toNat

/-- Test of `/<br\s*\/?>/i` used by `cellHasContent`. -/
def brTagTest (s : String) : Bool :=
  let cs := (jsLower s).data
  (idxCandidates cs).any fun i =>
    subAt "<br".data cs i &&
    (match (cs.drop (i + 3)).dropWhile jsWhitespace with
     | '>' :: _ => true
     | '/' :: '>' :: _ => true
     | _ => false)

/-- `cellHasContent`: trimmed text non-empty, or a media element, or a
line-break tag in the markup. -/
def cellHasContent (c : DomCell) : Bool :=
  jsTrim c.text != "" || c.hasMediaEl || brTagTest c.innerHTML

/-- One cell placed on the logical grid (`GridCell` of the source; header
cells carry row `-1`). -/
structure GridCell where
  cell : DomCell
  row : Int
  col : Nat
  colspan : Nat
  rowspan : Nat
deriving DecidableEq

/-- `TableGrid` of the source. -/
structure TableGrid where
  expectedCols : Nat
  headerCells : List GridCell
  bodyCells : List GridCell
  rowWidths : List Nat
  colHasContent : List Bool
deriving DecidableEq

/-- `computeExpectedColsFromHeader`: sum of header-cell colspans. -/
def computeExpectedColsFromHeader (headerCells : List DomCell) : Nat :=
  headerCells.foldl (fun acc c => acc + safeInt c.colspanAttr) 0

/-- Header cells are laid out left to right, advancing by colspan. -/
def placeHeaderCells : Nat → List DomCell → List GridCell
  | _, [] => []
  | col, c :: rest =>
      let cs := safeInt c.colspanAttr
      ⟨c, -1, col, cs, safeInt c.rowspanAttr⟩ :: placeHeaderCells (col + cs) rest

/-- `nextFreeCol` scan; a fuel of `pending.length` suffices because every
index beyond the array reads as 0. -/
def nextFreeColAux (pending : List Nat) : Nat → Nat → Nat
  | 0, c => c
  | fuel + 1, c => if pending.getD c 0 > 0 then nextFreeColAux pending fuel (c + 1) else c

/-- `nextFreeCol`: first column index not reserved by a pending rowspan. -/
def nextFreeCol (pending : List Nat) (c : Nat) : Nat :=
  nextFreeColAux pending pending.length c

/-- Extend a JS sparse array with zero-valued holes up to length `n`. -/
def padTo (l : List Nat) (n : Nat) : List Nat := l ++ List.replicate (n - l.length) 0

/-- Extend the `colHasContent` array with `false` up to length `n`. -/
def padToBool (l : List Bool) (n : Nat) : List Bool :=
  l ++ List.replicate (n - l.length) false

/-- `pendingRowspans[c] = Math.max(pendingRowspans[c] || 0, v)`. -/
def reserveOne (pending : List Nat) (c : Nat) (v : Nat) : List Nat :=
  let p := padTo pending (c + 1)
  p.set c (max (p.getD c 0) v)

/-- Reservation loop over the `colspan` columns a cell occupies. -/
def reserveRange (pending : List Nat) (col cs v : Nat) : List Nat :=
  (List.range cs).foldl (fun p i => reserveOne p (col + i) v) pending

/-- Content marking: grow the array when `col + colspan` exceeds it, then set
the occupied columns to `true`. -/
def markContent (chc : List Bool) (col cs : Nat) : List Bool :=
  let grown := if col + cs > chc.length then padToBool chc (col + cs) else chc
  (List.range cs).foldl (fun l i => l.set (col + i) true) grown

/-- `computeRowWidth`: the placed right edge, widened by any column still
reserved by a pending rowspan. -/
def computeRowWidth (placedRightEdge : Nat) (pending : List Nat) : Nat :=
  pending.enum.foldl
    (fun right p => if p.2 > 0 && p.1 + 1 > right then p.1 + 1 else right)
    placedRightEdge

/-- State while scanning the cells of one body row. -/
structure RowScan where
  col : Nat
  placedRightEdge : Nat
  pending : List Nat
  cells : List GridCell
  chc : List Bool

/-- Placement of one body cell (loop body of `buildGrid`). -/
def placeBodyCell (rIdx : Nat) (st : RowScan) (cell : DomCell) : RowScan :=
  let col := nextFreeCol st.pending st.col
  let cs := safeInt cell.colspanAttr
  let rs := safeInt cell.rowspanAttr
  let chc := if cellHasContent cell then markContent st.chc col cs else st.chc
  let pending := if rs > 1 then reserveRange st.pending col cs (rs - 1) else st.pending
  { col := col + cs
    placedRightEdge := max st.placedRightEdge (col + cs)
    pending := pending
    cells := st.cells ++ [⟨cell, (rIdx : Int), col, cs, rs⟩]
    chc := chc }

/-- State threaded across body rows. -/
structure GridScan where
  pending : List Nat
  bodyCells : List GridCell
  rowWidths : List Nat
  chc : List Bool

/-- One body row: place every cell, record the row width, then decrement all
pending rowspan counters (as the source does at the end of the same row). -/
def scanBodyRow (acc : GridScan) (rIdxRow : Nat × List DomCell) : GridScan :=
  let st := rIdxRow.2.foldl (placeBodyCell rIdxRow.1)
    { col := 0, placedRightEdge := 0, pending := acc.pending, cells := [], chc := acc.chc }
  let width := computeRowWidth st.placedRightEdge st.pending
  { pending := st.pending.map (fun n => n - 1)
    bodyCells := acc.bodyCells ++ st.cells
    rowWidths := acc.rowWidths ++ [width]
    chc := st.chc }

/-- `buildGrid` (part_002 lines 151-250). -/
def buildGrid (headerRow : Option (List DomCell)) (bodyRows : List (List DomCell)) :
    TableGrid :=
  let headerRowCells := headerRow.getD []
  let expectedCols := computeExpectedColsFromHeader headerRowCells
  let headerCells := placeHeaderCells 0 headerRowCells
  let init : GridScan :=
    { pending := [], bodyCells := [], rowWidths := [],
      chc := List.replicate (max expectedCols 1) false }
  let res := bodyRows.enum.foldl scanBodyRow init
  let derivedExpected := if expectedCols > 0 then expectedCols else res.rowWidths.foldl max 0
  let finalWidth := max derivedExpected res.chc.length
  { expectedCols := derivedExpected
    headerCells := headerCells
    bodyCells := res.bodyCells
    rowWidths := res.rowWidths
    colHasContent := padToBool res.chc finalWidth }

/-! ### Ghost-column rule (analyzeTable, part_002 lines 469-496) -/

/-- Severity tags of the audit issues. -/
inductive Sev
  | BAD
  | WARN
deriving DecidableEq

/-- One audit issue; the source's `type` field is called `kind` here, the
identity and message fields are elided. -/
structure AuditIssue where
  severity : Sev
  kind : String
  row : Option Nat := none
  col : Option Nat := none
deriving DecidableEq

/-- Count of trailing columns without content (the backwards scan of the
source). -/
def trailingGhostCount (l : List Bool) : Nat :=
  (l.reverse.takeWhile (fun b => !b)).length

/-- The per-column `forEach` of the ghost rule, carrying the column index. -/
def ghostColIssuesAux (expectedCols : Nat) : Nat → List Bool → List AuditIssue
  | _, [] => []
  | cIdx, has :: rest =>
      (if has then [] else
        [{ severity := if cIdx == expectedCols - 1 then Sev.BAD else Sev.WARN,
           kind := "GHOST_COLUMN", col := some cIdx }]) ++
      ghostColIssuesAux expectedCols (cIdx + 1) rest

/-- Ghost-column block of `analyzeTable`, a function of the grid outputs it
reads. -/
def ghostIssues (expectedCols bodyRowCount : Nat) (gridChc : List Bool) :
    List AuditIssue :=
  if expectedCols > 1 && bodyRowCount > 0 then
    let colHasContent := gridChc.take expectedCols
    let trailing := trailingGhostCount colHasContent
    if trailing ≥ 3 then [{ severity := Sev.BAD, kind := "GHOST_COLUMNS" }]
    else ghostColIssuesAux expectedCols 0 colHasContent
  else []

/-! ### The remaining checks of `analyzeTable` (part_002 lines 316-677) -/

/-- Test of `REGEX_CONTENT_SWALLOW =
`Armadilha #N`, `Estratégia #N`, the classification banner, `mnemonica-box`
(case-insensitive). -/
def hashNumberAfter (cs : List Char) : Bool :=
  match cs.dropWhile jsWhitespace with
  | '#' :: d :: _ => d.isDigit
  | _ => false

/-- `REGEX_CONTENT_SWALLOW.test`. -/
def contentSwallowTest (s : String) : Bool :=
  let cs := (jsLower s).data
  ((idxCandidates cs).any fun i =>
    (subAt "armadilha".data cs i && hashNumberAfter (cs.drop (i + 9))) ||
    (subAt "estratégia".data cs i && hashNumberAfter (cs.drop (i + 10)))) ||
  containsSub cs "critérios para classificação de sigilo".data ||
  containsSub cs "mnemonica-box".data

/-- Test of `/\|\s*-{3,}/` (markdown separator). -/
def pipeDashesTest (s : String) : Bool :=
  let cs := s.data
  (idxCandidates cs).any fun i =>
    match cs.drop i with
    | '|' :: rest => "---".data.isPrefixOf (rest.dropWhile jsWhitespace)
    | _ => false

/-- Digits followed by an optional closing brace, consuming everything
(the `\d+\}?$` tail of `REGEX_SPLIT_CELL`). -/
def digitsOptCloseTest (cs : List Char) : Bool :=
  (cs.takeWhile Char.isDigit) != [] &&
  (cs.dropWhile Char.isDigit = [] || cs.dropWhile Char.isDigit = ['\x7d'])

/-- Test of `REGEX_SPLIT_CELL = /^(\s*\$\s*|\s*[A-Za-z]_\{?\d+\}?\s*)$/`. -/
def splitCellTest (s : String) : Bool :=
  let core := ((s.data.dropWhile jsWhitespace).reverse.dropWhile jsWhitespace).reverse
  core = ['$'] ||
  (match core with
   | a :: '_' :: rest =>
       a.isAlpha &&
       (match rest with
        | '\x7b' :: r => digitsOptCloseTest r
        | r => digitsOptCloseTest r)
   | _ => false)

/-- Test of `REGEX_SPLIT_OPERATOR = /^[\s]*[><=+*/][\s]*$/`. -/
def splitOperatorTest (s : String) : Bool :=
  let core := ((s.data.dropWhile jsWhitespace).reverse.dropWhile jsWhitespace).reverse
  match core with
  | [c] => c = '>' || c = '<' || c = '=' || c = '+' || c = '*' || c = '/'
  | _ => false

/-- Keyword alternation of `REGEX_AI_LAZY`. -/
def aiLazyKeywords : List (List Char) :=
  ["incompleta", "fórmula", "formula", "missing", "erro", "check", "todo",
   "inserir", "preencher"].map String.data

/-- No line terminator in `cs[i..k)` (JS `.` does not match them). -/
def noLineBreakBetween (cs : List Char) (i k : Nat) : Bool :=
  ((cs.drop i).take (k - i)).all (fun c => !(c = '\n' || c = '\r'))

/-- Test of `REGEX_AI_LAZY = /\[.*(kw...).*\]/i`. -/
def aiLazyTest (s : String) : Bool :=
  let cs := (jsLower s).data
  (idxCandidates cs).any fun i =>
    cs.getD i ' ' = '[' &&
    ((idxCandidates cs).any fun j =>
      i + 1 ≤ j && aiLazyKeywords.any fun kw =>
        subAt kw cs j &&
        ((idxCandidates cs).any fun k =>
          j + kw.length ≤ k && cs.getD k ' ' = ']' && noLineBreakBetween cs (i + 1) k))

/-- Test of `REGEX_BROKEN_ENTITY = /&[a-zA-Z]+(?![a-zA-Z;])|&#\d*(?![0-9;])/`;
the negative lookaheads reduce to inspecting the character after the maximal
run. -/
def brokenEntityTest (s : String) : Bool :=
  let cs := s.data
  (idxCandidates cs).any fun i =>
    match cs.drop i with
    | '&' :: '#' :: rest =>
        (match rest.dropWhile Char.isDigit with
         | [] => true
         | c :: _ => c != ';')
    | '&' :: c :: rest =>
        c.isAlpha &&
        (match (c :: rest).dropWhile Char.isAlpha with
         | [] => true
         | c2 :: _ => c2 != ';')
    | _ => false

/-- Scan of the `[^"']*&[lg]t;` tail of `REGEX_BROKEN_STYLE_VALUE`. -/
def styleEscapedRest : List Char → Bool
  | [] => false
  | c :: rest =>
      if c = '"' || c = '\x27' then false
      else if c = '&' && ("lt;".data.isPrefixOf rest || "gt;".data.isPrefixOf rest) then true
      else styleEscapedRest rest

/-- Test of `REGEX_BROKEN_STYLE_VALUE = /style\s*=\s*["'][^"']*&[lg]t;/i`. -/
def brokenStyleValueTest (s : String) : Bool :=
  let cs := (jsLower s).data
  (idxCandidates cs).any fun i =>
    subAt "style".data cs i &&
    (match (cs.drop (i + 5)).dropWhile jsWhitespace with
     | '=' :: r2 =>
        (match r2.dropWhile jsWhitespace with
         | q :: r3 => (q = '"' || q = '\x27') && styleEscapedRest r3
         | [] => false)
     | _ => false)

/-- Test of `/^[\s|—–-]+$/` on the trimmed header text (placeholder
headers). -/
def placeholderHeaderTest (h : String) : Bool :=
  let t := (jsTrim h).data
  !t.isEmpty && t.all (fun c => jsWhitespace c || c = '|' || c = '—' || c = '–' || c = '-')

/-- Test of `/\.{3,}$|…$/` (truncated content). -/
def truncatedTest (s : String) : Bool :=
  strEndsWith s "..." || strEndsWith s "…"

/-- Test of `/&nbsp;| /`. -/
def nbspTest (s : String) : Bool :=
  strContainsSub s "&nbsp;" || s.data.contains ' '

/-- Test of `/:\s*;|:\s*$/` (broken inline style declaration). -/
def brokenStyleDeclTest (s : String) : Bool :=
  let cs := s.data
  (idxCandidates cs).any fun i =>
    match cs.drop i with
    | ':' :: rest =>
        (match rest.dropWhile jsWhitespace with
         | [] => true
         | c :: _ => c = ';')
    | _ => false

/-- Test of `/\\[a-zA-Z]/`. -/
def backslashAlphaTest (s : String) : Bool :=
  let cs := s.data
  (idxCandidates cs).any fun i =>
    match cs.drop i with
    | '\\' :: c :: _ => c.isAlpha
    | _ => false

/-- Gate guarding the LaTeX checks:
`txt.includes('$') || /\\[a-zA-Z]/.test(txt)`. -/
def latexGate (s : String) : Bool := s.data.contains '$' || backslashAlphaTest s

/-- Financial table keywords of the audit. -/
def financialKeywords : List String :=
  ["débito", "crédito", "saldo", "valor", "r$", "custo", "receita", "despesa",
   "total", "entradas", "saídas", "estoque", "lucro", "patrimônio"]

/-- `isFinancial`: some lowercased header text contains a financial keyword. -/
def isFinancialHeader (headerTexts : List String) : Bool :=
  headerTexts.any fun t => financialKeywords.any fun k => strContainsSub t k

/-- Header-level per-cell checks (step 8 of `analyzeTable`). -/
def headerChecks (headerCells : List DomCell) : List AuditIssue :=
  (headerCells.enum.map fun p =>
    let idx := p.1
    let el := p.2
    let txt := jsTrim el.text
    (if strEndsWith txt "($" || txt = ")" || txt = "$)" then
      [{ severity := Sev.BAD, kind := "SPLIT_HEADER", row := some 0, col := some idx }]
     else []) ++
    (if txt = "" && !cellHasContent el then
      [{ severity := Sev.WARN, kind := "HEADER_EMPTY", col := some idx }]
     else []) ++
    (if latexGate txt && (checkLatexBalance txt).broken then
      [{ severity := Sev.BAD, kind := "HEADER_LATEX_BROKEN", row := some 0, col := some idx }]
     else []) ++
    (if brokenStyleValueTest el.innerHTML then
      [{ severity := Sev.BAD, kind := "HEADER_BROKEN_STYLE", row := some 0, col := some idx }]
     else [])).flatten

/-- Missing/placeholder header rule. -/
def missingHeaderIssues (headerTexts : List String) : List AuditIssue :=
  let emptyOrPlaceholder := headerTexts.filter fun h => h = "" || placeholderHeaderTest h
  if emptyOrPlaceholder.length ≥ 2 then
    [{ severity := Sev.BAD, kind := "MISSING_HEADER_TEXT" }]
  else []

/-- Duplicate header rule. -/
def duplicateHeaderIssues (headerTexts : List String) : List AuditIssue :=
  let nonEmpty := headerTexts.filter fun h => h != "" && !placeholderHeaderTest h
  let dups := nonEmpty.enum.filter fun p => nonEmpty.indexOf p.2 != p.1
  if dups.length > 0 then [{ severity := Sev.BAD, kind := "HEADER_DUP" }] else []

/-- Row width mismatch rule (step 10). -/
def colMismatchIssues (expectedCols : Nat) (rowWidths : List Nat) : List AuditIssue :=
  rowWidths.enum.filterMap fun p =>
    if expectedCols > 0 && p.2 != expectedCols then
      some { severity := Sev.BAD, kind := "COL_MISMATCH", row := some p.1 }
    else none

/-- Per-body-cell checks (step 11), in the source's push order. -/
def bodyCellChecks (isFinancial : Bool) (gc : GridCell) : List AuditIssue :=
  let text := jsTrim gc.cell.text
  let innerHTML := gc.cell.innerHTML
  let loc : Option Nat × Option Nat := (some gc.row.toNat, some gc.col)
  (if splitCellTest text then
    [{ severity := Sev.BAD, kind := "SPLIT_CELL", row := loc.1, col := loc.2 }] else []) ++
  (if splitOperatorTest text && (jsTrim text).length == 1 then
    [{ severity := Sev.BAD, kind := "SPLIT_CELL", row := loc.1, col := loc.2 }] else []) ++
  (if aiLazyTest text then
    [{ severity := Sev.BAD, kind := "AI_LAZY", row := loc.1, col := loc.2 }] else []) ++
  (if latexGate text && (checkLatexBalance text).broken then
    [{ severity := Sev.BAD, kind := "LATEX_BROKEN", row := loc.1, col := loc.2 }] else []) ++
  (if brokenEntityTest innerHTML then
    [{ severity := Sev.WARN, kind := "BROKEN_ENTITY", row := loc.1, col := loc.2 }] else []) ++
  (if brokenStyleValueTest innerHTML then
    [{ severity := Sev.BAD, kind := "BROKEN_STYLE_VALUE", row := loc.1, col := loc.2 }] else []) ++
  (if truncatedTest text && text.length > 10 then
    [{ severity := Sev.WARN, kind := "TRUNCATED_CONTENT", row := loc.1, col := loc.2 }] else []) ++
  (if !isFinancial && text = "" && nbspTest innerHTML &&
      innerHTML.length > 0 && innerHTML.length < 80 then
    [{ severity := Sev.WARN, kind := "WHITESPACE_ONLY", row := loc.1, col := loc.2 }] else [])

/-- Hole detection for one body row (step 12). -/
def holeIssuesForRow (expectedCols : Nat) (r : Nat) (cellsOfRow : List GridCell) :
    List AuditIssue :=
  if cellsOfRow.length < 2 then []
  else
    let covered := cellsOfRow.foldl
      (fun cov c => (List.range c.colspan).foldl
        (fun cv i => if c.col + i < expectedCols then cv.set (c.col + i) true else cv) cov)
      (List.replicate expectedCols false)
    ((List.range expectedCols).filter fun c =>
      1 ≤ c && c + 1 < expectedCols &&
      !(covered.getD c false) && covered.getD (c - 1) false && covered.getD (c + 1) false).map
      fun c => { severity := Sev.WARN, kind := "CELL_HOLE", row := some r, col := some c }

/-- Invalid-rowspan rule over all cells carrying a `rowspan` attribute, in
document order. -/
def invalidRowspanIssues (allCells : List DomCell) (maxRows : Nat) : List AuditIssue :=
  allCells.filterMap fun el =>
    match el.rowspanAttr with
    | none => none
    | some _ =>
        if safeInt el.rowspanAttr > maxRows then
          some { severity := Sev.BAD, kind := "INVALID_ROWSPAN" }
        else none

/-- Broken-style rule over all cells carrying a `style` attribute. -/
def brokenStyleIssues (allCells : List DomCell) : List AuditIssue :=
  allCells.filterMap fun el =>
    match el.styleAttr with
    | some style =>
        if brokenStyleDeclTest style then
          some { severity := Sev.WARN, kind := "BROKEN_STYLE" }
        else none
    | none => none

/-- `analyzeTable` (part_002 lines 316-677).

The jsdom parse is the abstraction boundary: `parsed` is the table's row
list (`none` when the markup holds no `<table>`), covering tables without a
`thead` section — jsdom wraps their bare rows into a `tbody` and the source
then takes the first row as header and the rest as body — with no nested
tables and with `rowspan` / `style` attributes only on cells. -/
def analyzeTable (rawHtml : String) (parsed : Option (List (List DomCell))) :
    List AuditIssue :=
  let trimmed := jsTrim rawHtml
  if contentSwallowTest rawHtml then [{ severity := Sev.BAD, kind := "CONTENT_SWALLOW" }]
  else if strStartsWith trimmed "|" || pipeDashesTest trimmed then
    [{ severity := Sev.BAD, kind := "MARKDOWN_DETECTED" }]
  else
    match parsed with
    | none =>
        if trimmed.length > 0 then [{ severity := Sev.BAD, kind := "INVALID_HTML" }] else []
    | some rows =>
      if rows.length = 0 then [{ severity := Sev.WARN, kind := "NO_DATA" }]
      else
        let headerRow := rows.head?
        let bodyRows := rows.tail
        let headerCellsEls := headerRow.getD []
        let noHeaderIssue :=
          if headerCellsEls.length = 0 then [{ severity := Sev.WARN, kind := "NO_HEADER" }]
          else []
        let grid := buildGrid headerRow bodyRows
        let expectedCols := grid.expectedCols
        let headerTexts := headerCellsEls.map fun c => jsLower (jsTrim c.text)
        let isFinancial := isFinancialHeader headerTexts
        let totalRows := (if headerRow.isSome then 1 else 0) + bodyRows.length
        let t1x1 :=
          if totalRows = 1 && expectedCols = 1 then
            (let txt := match headerCellsEls.head? with
              | some el => jsTrim el.text
              | none => ""
             if txt.length < 100 then [{ severity := Sev.WARN, kind := "TABLE_1x1" }] else [])
          else []
        let emptyTable :=
          if headerRow.isSome && bodyRows.length = 0 then
            [{ severity := Sev.WARN, kind := "EMPTY_TABLE" }]
          else []
        let allCells := headerCellsEls ++ bodyRows.flatten
        noHeaderIssue ++ t1x1 ++ emptyTable ++
        headerChecks headerCellsEls ++
        missingHeaderIssues headerTexts ++
        duplicateHeaderIssues headerTexts ++
        ghostIssues expectedCols bodyRows.length grid.colHasContent ++
        colMismatchIssues expectedCols grid.rowWidths ++
        (grid.bodyCells.map (bodyCellChecks isFinancial)).flatten ++
        (if isFinancial then []
         else ((List.range bodyRows.length).map fun r =>
           holeIssuesForRow expectedCols r
             (grid.bodyCells.filter fun gc => gc.row == (r : Int))).flatten) ++
        invalidRowspanIssues allCells totalRows ++
        brokenStyleIssues allCells

/-- The parsed form of the C5 scenario table
`<table><tr><th>Coluna 1</th><th>Valor</th></tr><tr><td></td><td>10</td></tr></table>`
as jsdom builds it (bare rows wrapped in an implicit `tbody`). -/
def c5Table : List (List DomCell) :=
  [[{ isTh := true, text := "Coluna 1", innerHTML := "Coluna 1" },
    { isTh := true, text := "Valor", innerHTML := "Valor" }],
   [{ text := "", innerHTML := "" },
    { text := "10", innerHTML := "10" }]]

/-- The serialized markup `analyzeTable` receives for the C5 scenario
(jsdom `outerHTML` of the parsed table). -/
def c5RawHtml : String :=
  "<table><tbody><tr><th>Coluna 1</th><th>Valor</th></tr><tr><td></td><td>10</td></tr></tbody></table>"

/-! ### Repair service (part_001 lines 222-830)

The two AI providers are oracles: a call outcome is `some (text, usage)` for
a response or `none` for a raised call error.  The pool provider consumes a
stream of outcomes, one per call; prompt construction is elided because the
oracles are positional, and the pass-through fields `issueId` /
`originalHtml` are elided as constants. -/

/-- AI providers. -/
inductive Provider
  | google
  | openrouter
deriving DecidableEq

/-- Repair strategies. -/
inductive Strategy
  | hybrid
  | openrouter
deriving DecidableEq

/-- Token usage record. -/
structure TokenUsage where
  promptTokens : Nat
  completionTokens : Nat
  totalTokens : Nat
deriving DecidableEq

/-- The zero usage the source initializes with. -/
def zeroUsage : TokenUsage := ⟨0, 0, 0⟩

/-- Accumulation of usage into `historyUsage`. -/
def addUsage (a b : TokenUsage) : TokenUsage :=
  ⟨a.promptTokens + b.promptTokens, a.completionTokens + b.completionTokens,
   a.totalTokens + b.totalTokens⟩

/-- `PRICE_INPUT_USD = 0.10`. -/
def PRICE_INPUT_USD : ℚ := 1 / 10

/-- `PRICE_OUTPUT_USD = 0.40`. -/
def PRICE_OUTPUT_USD : ℚ := 2 / 5

/-- `USD_TO_BRL = 6.00`. -/
def USD_TO_BRL : ℚ := 6

/-- `calculateCost` (part_001 lines 278-282). -/
def calculateCost (usage : TokenUsage) : ℚ :=
  let inputCost := (usage.promptTokens : ℚ) / 1000000 * PRICE_INPUT_USD
  let outputCost := (usage.completionTokens : ℚ) / 1000000 * PRICE_OUTPUT_USD
  (inputCost + outputCost) * USD_TO_BRL

/-- One logged attempt; in the source `rawResponse` and `cleanedHtml` are
both assigned the post-cleanup markup, so a single field keeps them. -/
structure RepairAttempt where
  attemptNumber : Nat
  provider : Provider
  rawResponse : String
  validationErrors : List String
  usage : TokenUsage
deriving DecidableEq

/-- The `log` object of a `RepairResult`. -/
structure RepairLog where
  attempts : List RepairAttempt
  finalResult : String
  totalCostBRL : ℚ
deriving DecidableEq

/-- `RepairResult`; fields absent on some return paths are `Option`s. -/
structure RepairResult where
  repairedHtml : String
  success : Bool
  provider : Option Provider := none
  usage : Option TokenUsage := none
  costBRL : Option ℚ := none
  error : Option String := none
  log : Option RepairLog := none
deriving DecidableEq

/-- Outcome of one provider call. -/
def CallOutcome := Option (String × TokenUsage)

/-- Deletion of every occurrence of `pat` (JS `replace(/pat/g, "")`),
scanning left to right past each replaced span. -/
def deleteAllSubAux (pat : List Char) : Nat → List Char → List Char
  | 0, hay => hay
  | _ + 1, [] => []
  | fuel + 1, c :: rest =>
      if pat.isPrefixOf (c :: rest) then
        deleteAllSubAux pat fuel ((c :: rest).drop pat.length)
      else c :: deleteAllSubAux pat fuel rest

/-- `deleteAllSubAux` on strings. -/
def deleteAllSub (s pat : String) : String :=
  ⟨deleteAllSubAux pat.data s.data.length s.data⟩

/-- The code-fence cleanup `replace(/```html/g, "").replace(/```/g, "")`. -/
def deleteFences (s : String) : String :=
  deleteAllSub (deleteAllSub s "```html") "```"

/-- The extraction `match(/<table[\s\S]*<\/table>/i)`: greedy span from the
first opening tag to the last closing tag starting at least 6 characters
later; without a match the input is kept. -/
def extractTableSpan (s : String) : String :=
  let low := (jsLower s).data
  let closes := (idxCandidates low).filter (subAt "</table>".data low)
  let opens := (idxCandidates low).filter (subAt "<table".data low)
  match opens.find? (fun i => closes.any (fun j => i + 6 ≤ j)) with
  | none => s
  | some i =>
      match (closes.filter (fun j => i + 6 ≤ j)).getLast? with
      | none => s
      | some j => ⟨(s.data.drop i).take (j + 8 - i)⟩

/-- Validation result of `verifyRepairedTable`. -/
structure Validation where
  valid : Bool
  errors : List String
deriving DecidableEq

/-- Test of `/<table[\s\S]*<\/table>/i`. -/
def hasTableSpanTest (s : String) : Bool :=
  let low := (jsLower s).data
  (idxCandidates low).any fun i =>
    subAt "<table".data low i &&
    (idxCandidates low).any fun j => i + 6 ≤ j && subAt "</table>".data low j

/-- Test of `/<tr[\s\S]*<\/tr>/i`. -/
def hasRowSpanTest (s : String) : Bool :=
  let low := (jsLower s).data
  (idxCandidates low).any fun i =>
    subAt "<tr".data low i &&
    (idxCandidates low).any fun j => i + 3 ≤ j && subAt "</tr>".data low j

/-- `verifyRepairedTable` (part_001 lines 471-488): a `<table>` span and a
`<tr>` span are required. -/
def verifyRepairedTable (html : String) : Validation :=
  if !hasTableSpanTest html then
    ⟨false, ["Output does not contain a valid <table> tag"]⟩
  else if !hasRowSpanTest html then ⟨false, ["Table has no rows"]⟩
  else ⟨true, []⟩

/-- The key-rotation loop (part_001 lines 581-603): up to 3 pool calls, an
exhausted oracle counting as a failed call; the error after 3 failures is the
thrown `"All OpenRouter keys failed."`. -/
def keyCallGo : Nat → List CallOutcome → Except String ((String × TokenUsage) × List CallOutcome)
  | 0, _ => Except.error "All OpenRouter keys failed."
  | fuel + 1, [] => keyCallGo fuel []
  | fuel + 1, o :: rest =>
      match o with
      | some r => Except.ok (r, rest)
      | none => keyCallGo fuel rest

/-- Pool call including the `getNextKey` throw when no key is configured. -/
def keyCall (numKeys : Nat) (stream : List CallOutcome) :
    Except String ((String × TokenUsage) × List CallOutcome) :=
  if numKeys = 0 then
    Except.error "No OpenRouter keys configured. Set OPENROUTER_KEYS in .env"
  else keyCallGo 3 stream

/-- `MAX_VERIFICATION_ATTEMPTS = 3`. -/
def MAX_VERIFICATION_ATTEMPTS : Nat := 3

/-- The response cleanup of one attempt (part_001 lines 606-613): strip the
code fences, trim, then keep only the `<table>` span. -/
def cleanupResponse (raw : String) : String :=
  extractTableSpan (jsTrim (deleteFences raw))

/-- The log entry pushed for one attempt (part_001 lines 621-629); both
`rawResponse` and `cleanedHtml` hold the cleaned markup at push time. -/
def mkAttempt (attempts : Nat) (p : Provider) (r : String × TokenUsage) :
    RepairAttempt :=
  { attemptNumber := attempts + 1, provider := p,
    rawResponse := cleanupResponse r.1,
    validationErrors := (verifyRepairedTable (cleanupResponse r.1)).errors,
    usage := r.2 }

/-- The provider interaction of one loop iteration: the optional primary
call on the first attempt under `hybrid` (a failure switching `providerUsed`
to the pool), then — exactly under the source's condition
`providerUsed === 'openrouter' || !ai || attempts > 0` — the pool call with
key rotation.  Returns the provider charged with the attempt, the response,
and the remaining pool oracle, or the message of the throw the outer catch
receives. -/
def iterCall (strategy : Strategy) (aiConfigured : Bool) (numKeys : Nat)
    (googleResp : CallOutcome) (attempts : Nat) (providerUsed : Provider)
    (orStream : List CallOutcome) :
    Except String (Provider × (String × TokenUsage) × List CallOutcome) :=
  let p1g :=
    if strategy == Strategy.hybrid && aiConfigured && attempts == 0 &&
        providerUsed == Provider.google then
      match googleResp with
      | some r => (Provider.google, some r)
      | none => (Provider.openrouter, (none : Option (String × TokenUsage)))
    else (providerUsed, none)
  if p1g.1 == Provider.openrouter || !aiConfigured || attempts > 0 then
    match keyCall numKeys orStream with
    | Except.error m => Except.error m
    | Except.ok (r, rest) => Except.ok (Provider.openrouter, r, rest)
  else
    match p1g.2 with
    | some r => Except.ok (p1g.1, r, orStream)
    | none => Except.ok (p1g.1, ("", zeroUsage), orStream)

/-- The `while (attempts < MAX_VERIFICATION_ATTEMPTS)` loop of
`repairTableWithGemini`, with `fuel = 3 - attempts` making the bound
structural.  Each iteration follows the source: provider interaction
(`iterCall`), fence cleanup and table extraction, validation, logging, then
success return, retry, or the catch-all error return that drops the log. -/
def repairLoop (strategy : Strategy) (aiConfigured : Bool) (numKeys : Nat)
    (googleResp : CallOutcome) :
    Nat → Nat → Provider → List CallOutcome → TokenUsage → List RepairAttempt →
    RepairResult
  | 0, _, providerUsed, _, historyUsage, attemptLogs =>
      { repairedHtml := "", success := false,
        error := some "Validation failed after 3 attempts.",
        log := some
          { attempts := attemptLogs, finalResult := "failed",
            totalCostBRL :=
              if providerUsed == Provider.openrouter then calculateCost historyUsage
              else 0 } }
  | fuel + 1, attempts, providerUsed, orStream, historyUsage, attemptLogs =>
      match iterCall strategy aiConfigured numKeys googleResp attempts providerUsed orStream with
      | Except.error m => { repairedHtml := "", success := false, error := some m }
      | Except.ok (p, r, orRest) =>
          if (verifyRepairedTable (cleanupResponse r.1)).valid then
            { repairedHtml := cleanupResponse r.1, success := true, provider := some p,
              usage := some (addUsage historyUsage r.2),
              costBRL := some
                (if p == Provider.openrouter then calculateCost (addUsage historyUsage r.2)
                 else 0),
              log := some
                { attempts := attemptLogs ++ [mkAttempt attempts p r],
                  finalResult := "success",
                  totalCostBRL :=
                    if p == Provider.openrouter then calculateCost (addUsage historyUsage r.2)
                    else 0 } }
          else
            repairLoop strategy aiConfigured numKeys googleResp fuel (attempts + 1) p
              orRest (addUsage historyUsage r.2) (attemptLogs ++ [mkAttempt attempts p r])

/-- `repairTableWithGemini` (part_001 lines 527-687). -/
def repairTableWithGemini (strategy : Strategy) (aiConfigured : Bool) (numKeys : Nat)
    (googleResp : CallOutcome) (orStream : List CallOutcome) : RepairResult :=
  let providerUsed :=
    if strategy == Strategy.openrouter then Provider.openrouter else Provider.google
  repairLoop strategy aiConfigured numKeys googleResp MAX_VERIFICATION_ATTEMPTS 0
    providerUsed orStream zeroUsage []

/-- Modelled from the spec: `totalAttemptsMade`, the number of protocol
attempts actually made — every entered iteration of the verification loop,
including one that ends in an unrecoverable call error.  Kept separate from
the source translation so the attempt-log claim can be compared against it. -/
def attemptsMadeLoop (strategy : Strategy) (aiConfigured : Bool) (numKeys : Nat)
    (googleResp : CallOutcome) : Nat → Nat → Provider → List CallOutcome → Nat
  | 0, _, _, _ => 0
  | fuel + 1, attempts, providerUsed, orStream =>
      match iterCall strategy aiConfigured numKeys googleResp attempts providerUsed orStream with
      | Except.error _ => 1
      | Except.ok (p, r, orRest) =>
          if (verifyRepairedTable (cleanupResponse r.1)).valid then 1
          else 1 + attemptsMadeLoop strategy aiConfigured numKeys googleResp fuel
            (attempts + 1) p orRest

/-- `totalAttemptsMade` for a whole invocation. -/
def attemptsMade (strategy : Strategy) (aiConfigured : Bool) (numKeys : Nat)
    (googleResp : CallOutcome) (orStream : List CallOutcome) : Nat :=
  let providerUsed :=
    if strategy == Strategy.openrouter then Provider.openrouter else Provider.google
  attemptsMadeLoop strategy aiConfigured numKeys googleResp MAX_VERIFICATION_ATTEMPTS 0
    providerUsed orStream

/-! ### Key rotation (part_001 lines 259-269) -/

/-- `getNextKey`, modelled on key indices: the key at the current pointer is
returned and the pointer advances cyclically. -/
def getNextKey (numKeys keyPointer : Nat) : Nat × Nat :=
  (keyPointer, (keyPointer + 1) % numKeys)

/-- Pointer value after `n` calls starting from `p0`. -/
def keyPointerAfter (numKeys p0 : Nat) : Nat → Nat
  | 0 => p0
  | n + 1 => (getNextKey numKeys (keyPointerAfter numKeys p0 n)).2

/-- Key index selected by the `n`-th call (0-based). -/
def selectedKeyIndex (numKeys p0 n : Nat) : Nat :=
  (getNextKey numKeys (keyPointerAfter numKeys p0 n)).1

/-! ### Worker retry scheduling (repairWorker.ts lines 97-144) -/

/-- Outcome the worker writes for a failed repair. -/
inductive TaskAction
  | retry (nextRetryDelayMs : Nat)
  | failed
deriving DecidableEq

/-- Failure branch of the worker: while attempts remain, status RETRY with
`nextRetryAt = now + Math.pow(2, attempt + 1) * 5000`, where `attempt` is the
0-based payload value; otherwise status FAILED. -/
def onRepairFailure (attempt maxAttempts : Nat) : TaskAction :=
  if attempt + 1 < maxAttempts then TaskAction.retry (2 ^ (attempt + 1) * 5000)
  else TaskAction.failed

/-- Modelled from the spec: the job queue is an external collaborator; its
configuration in part_001 lines 67-83 (exponential backoff, base delay
5000 ms, documented there as `5s, 10s, 20s, 40s...`) redelivers the job
after retry `r` in `5000 * 2 ^ (r - 1)` milliseconds. -/
def bullmqRedeliveryDelayMs (retriesMade : Nat) : Nat :=
  5000 * 2 ^ (retriesMade - 1)

/-! ### DOM tree model for `domReplace` and `countExpectedCols`

`domReplace` (repairWorker.ts lines 296-341) and `countExpectedCols`
(part_001 lines 814-830) work on whole parsed trees, so field markup is
modelled as a forest of element and text nodes; parsing and serialization
are the abstraction boundary. -/

/-- An HTML node: an element with tag, attributes and children, or text. -/
inductive HNode
  | elem (tag : String) (attrs : List (String × String)) (children : List HNode)
  | text (s : String)

/-- Children of a node. -/
def childListOf : HNode → List HNode
  | .elem _ _ c => c
  | .text _ => []

/-- `querySelector('table')`: first `table` element in document order, at any
depth. -/
def firstTable : List HNode → Option HNode
  | [] => none
  | .text _ :: ns => firstTable ns
  | .elem tag a c :: ns =>
      if tag = "table" then some (.elem tag a c)
      else
        match firstTable c with
        | some t => some t
        | none => firstTable ns

/-- `querySelectorAll('tr')` under a node list: all `tr` descendants in
document order (nested tables included, as in the source). -/
def trsInList : List HNode → List HNode
  | [] => []
  | .text _ :: ns => trsInList ns
  | .elem tag a c :: ns =>
      (if tag = "tr" then [HNode.elem tag a c] else []) ++ trsInList c ++ trsInList ns

/-- `querySelectorAll('td, th')` under a node list. -/
def cellsInList : List HNode → List HNode
  | [] => []
  | .text _ :: ns => cellsInList ns
  | .elem tag a c :: ns =>
      (if tag = "td" || tag = "th" then [HNode.elem tag a c] else []) ++
      cellsInList c ++ cellsInList ns

/-- `countExpectedCols` (part_001 lines 814-830): 0 without a table,
otherwise the maximum raw `td`/`th` count over the first table's `tr` rows;
`colspan` attributes are never read. -/
def countExpectedCols (doc : List HNode) : Nat :=
  match firstTable doc with
  | none => 0
  | some t =>
      (trsInList (childListOf t)).foldl
        (fun mx tr => max mx (cellsInList (childListOf tr)).length) 0

/-- Attribute erasure, used to state that `countExpectedCols` is independent
of every attribute, `colspan` included. -/
def stripAttrsList : List HNode → List HNode
  | [] => []
  | .text s :: ns => .text s :: stripAttrsList ns
  | .elem tag _ c :: ns => .elem tag [] (stripAttrsList c) :: stripAttrsList ns

/-- Attribute erasure on one node. -/
def stripAttrsNode : HNode → HNode
  | .text s => .text s
  | .elem tag _ c => .elem tag [] (stripAttrsList c)

/-- Top-level tables of `domReplace`: `table` elements with no `table`
ancestor, in document order (the collection does not descend into a table). -/
def topTables : List HNode → List HNode
  | [] => []
  | .text _ :: ns => topTables ns
  | .elem tag a c :: ns =>
      if tag = "table" then HNode.elem tag a c :: topTables ns
      else topTables c ++ topTables ns

/-- The mutation of `domReplace`: walk to the `k`-th top-level table and
replace it by `r` (`none` removes it, as `targetTable.remove()` does).  The
second component is `none` once the substitution happened, or `some k2` with
the count of top-level tables still to skip. -/
def substTop (r : Option HNode) : Nat → List HNode → List HNode × Option Nat
  | k, [] => ([], some k)
  | k, .text s :: ns =>
      let p := substTop r k ns
      (HNode.text s :: p.1, p.2)
  | k, .elem tag a c :: ns =>
      if tag = "table" then
        match k with
        | 0 => ((match r with | some n => [n] | none => []) ++ ns, none)
        | k' + 1 =>
            let p := substTop r k' ns
            (HNode.elem tag a c :: p.1, p.2)
      else
        match substTop r k c with
        | (c', none) => (HNode.elem tag a c' :: ns, none)
        | (c', some k2) =>
            let p := substTop r k2 ns
            (HNode.elem tag a c' :: p.1, p.2)

/-- Forest with every top-level table dropped: the content of a field
outside its top-level tables. -/
def stripTop : List HNode → List HNode
  | [] => []
  | .text s :: ns => .text s :: stripTop ns
  | .elem tag a c :: ns =>
      if tag = "table" then stripTop ns
      else .elem tag a (stripTop c) :: stripTop ns

/-- `domReplace` (repairWorker.ts lines 296-341): out-of-range index is a
no-op returning the field unchanged; empty (after trim) repaired markup
removes the targeted table; otherwise the first `table` element of the
repaired markup replaces it, and without one nothing changes. -/
def domReplace (h : List HNode) (mRaw : String) (mParsed : List HNode)
    (tableIndex : Nat) : List HNode :=
  if tableIndex ≥ (topTables h).length then h
  else if jsTrim mRaw = "" then (substTop none tableIndex h).1
  else
    match firstTable mParsed with
    | some newTable => (substTop (some newTable) tableIndex h).1
    | none => h

end TR

namespace TR

/-! ## Theorems -/

/-! ### C6 — `checkLatexBalance` -/

/-- C6 counterexample: the claim says a trimmed text `($` is flagged broken
with reason `Orphan symbol`; the source returns it unflagged, because the
length guard (`< 3`) fires first on every orphan literal. -/
theorem c6_orphan_counterexample : checkLatexBalance "($" = ⟨false, ""⟩ := by decide

/-- C6 (amended): `checkLatexBalance` never reports `Orphan symbol` — all
five orphan literals are shorter than the 3-character guard — while texts
shorter than 3 characters are never flagged and currency-like prefixes are
exempted. -/
theorem c6_checkLatexBalance_amended (t : String) :
    (checkLatexBalance t).reason ≠ "Orphan symbol" ∧
    ((jsTrim t).length < 3 → (checkLatexBalance t).broken = false) ∧
    ((currencyStartTest (jsTrim t) || rDollarTest (jsTrim t)) = true →
      (checkLatexBalance t).broken = false) := by
  refine ⟨?_, ?_, ?_⟩
  · simp only [checkLatexBalance]
    split_ifs with h1 h2 h3 h4 h5
    · decide
    · decide
    · exfalso
      simp only [Bool.or_eq_true, decide_eq_true_eq] at h3
      rcases h3 with (((h | h) | h) | h) | h <;> rw [h] at h1 <;> exact h1 (by decide)
    · decide
    · decide
    · decide
  · intro h
    simp [checkLatexBalance, h]
  · intro h
    by_cases hlen : (jsTrim t).length < 3
    · simp [checkLatexBalance, hlen]
    · simp [checkLatexBalance, hlen, h]

/-- C6 witness: the amended theorem applied at the short text `ab` and the
currency text `R$ 9,99`. -/
theorem c6_witness :
    (checkLatexBalance "ab").broken = false ∧
    (checkLatexBalance "R$ 9,99").broken = false :=
  ⟨(c6_checkLatexBalance_amended "ab").2.1 (by decide),
   (c6_checkLatexBalance_amended "R$ 9,99").2.2 (by decide)⟩

/-! ### C1 — `buildGrid` rowspan reservation -/

/-- C1: evaluating `buildGrid` at the failing input.  A cell with rowspan 2
in body row 0 leaves no reservation for body row 1 — the single cell of
row 1 lands at column 0, the very column the rowspan occupies — because the
source decrements the pending counters at the end of the row that placed
them.  With rowspan 3, row 1 is reserved (cell placed at column 1) but
row 2 is not: the reservation covers only `r - 2` further rows instead of
the claimed `r - 1`. -/
theorem c1_buildGrid_rowspan_off_by_one :
    ((buildGrid none [[{ rowspanAttr := some 2 }], [{}]]).bodyCells.map
        fun g => (g.row, g.col)) = [((0 : Int), 0), (1, 0)] ∧
    ((buildGrid none [[{ rowspanAttr := some 3 }], [{}], [{}]]).bodyCells.map
        fun g => (g.row, g.col)) = [((0 : Int), 0), (1, 1), (2, 0)] := by decide

/-! ### C4 — ghost-column rule -/

/-- The per-column ghost scan, described through indices into the scanned
list. -/
theorem ghostColIssuesAux_eq_range (ec : Nat) (l : List Bool) :
    ∀ c0 : Nat,
      ghostColIssuesAux ec c0 l =
        (List.range l.length).filterMap fun i =>
          if l.getD i false then none
          else some { severity := if c0 + i = ec - 1 then Sev.BAD else Sev.WARN,
                      kind := "GHOST_COLUMN", row := none, col := some (c0 + i) } := by
  induction l with
  | nil => intro c0; simp [ghostColIssuesAux]
  | cons b rest ih =>
      intro c0
      show ghostColIssuesAux ec c0 (b :: rest) =
        (List.range (rest.length + 1)).filterMap _
      rw [List.range_succ_eq_map, List.filterMap_cons, List.filterMap_map]
      have hcomp :
          ((fun i =>
              if (b :: rest).getD i false then none
              else some { severity := if c0 + i = ec - 1 then Sev.BAD else Sev.WARN,
                          kind := "GHOST_COLUMN", row := none,
                          col := some (c0 + i) : AuditIssue }) ∘ Nat.succ) =
          (fun i =>
            if rest.getD i false then none
            else some { severity := if (c0 + 1) + i = ec - 1 then Sev.BAD else Sev.WARN,
                        kind := "GHOST_COLUMN", row := none, col := some ((c0 + 1) + i) }) := by
        funext i
        have h1 : c0 + (i + 1) = (c0 + 1) + i := by omega
        simp only [Function.comp, Nat.succ_eq_add_one, List.getD_cons_succ, h1]
      rw [hcomp, ← ih (c0 + 1)]
      cases b
      · simp [ghostColIssuesAux, Nat.beq_eq_true_eq]
      · simp [ghostColIssuesAux]

/-- The per-column ghost scan emits one issue per ghost column. -/
theorem ghostColIssuesAux_length (ec : Nat) (l : List Bool) :
    ∀ c0 : Nat, (ghostColIssuesAux ec c0 l).length = l.countP (fun b => !b) := by
  induction l with
  | nil => intro c0; simp [ghostColIssuesAux]
  | cons b rest ih =>
      intro c0
      cases b <;> simp [ghostColIssuesAux, List.countP_cons, ih (c0 + 1)]

/-- C4: the ghost-column rule of `analyzeTable`.  Outside the guard
(`expectedCols > 1` and at least one body row) no ghost issue is emitted;
with at least 3 trailing ghost columns exactly one aggregate BAD
`GHOST_COLUMNS` issue is emitted and no per-column issue; otherwise one
`GHOST_COLUMN` issue per ghost column, BAD exactly on the last expected
column and WARN elsewhere, one issue per ghost column. -/
theorem c4_ghost_columns (ec nb : Nat) (chc : List Bool) (hlen : ec ≤ chc.length) :
    ((ec ≤ 1 ∨ nb = 0) → ghostIssues ec nb chc = []) ∧
    (1 < ec → 0 < nb → 3 ≤ trailingGhostCount (chc.take ec) →
      ghostIssues ec nb chc = [{ severity := Sev.BAD, kind := "GHOST_COLUMNS" }]) ∧
    (1 < ec → 0 < nb → trailingGhostCount (chc.take ec) < 3 →
      ghostIssues ec nb chc =
        (List.range ec).filterMap fun c =>
          if (chc.take ec).getD c false then none
          else some { severity := if c = ec - 1 then Sev.BAD else Sev.WARN,
                      kind := "GHOST_COLUMN", row := none, col := some c }) ∧
    (1 < ec → 0 < nb → trailingGhostCount (chc.take ec) < 3 →
      (ghostIssues ec nb chc).length = (chc.take ec).countP (fun b => !b)) := by
  have htake : (chc.take ec).length = ec := by
    simp [List.length_take, Nat.min_eq_left hlen]
  refine ⟨?_, ?_, ?_, ?_⟩
  · intro h
    have hguard : (decide (ec > 1) && decide (nb > 0)) = false := by
      rcases h with h | h <;> simp <;> omega
    simp [ghostIssues, hguard]
  · intro h1 h2 h3
    have hguard : (decide (ec > 1) && decide (nb > 0)) = true := by
      simp
      omega
    simp [ghostIssues, hguard, if_pos h3]
  · intro h1 h2 h3
    have hno : ¬ (trailingGhostCount (chc.take ec) ≥ 3) := by omega
    have hguard : (decide (ec > 1) && decide (nb > 0)) = true := by
      simp
      omega
    simp only [ghostIssues, hguard, if_true, if_neg hno]
    rw [ghostColIssuesAux_eq_range ec (chc.take ec) 0]
    simp [htake]
  · intro h1 h2 h3
    have hno : ¬ (trailingGhostCount (chc.take ec) ≥ 3) := by omega
    have hguard : (decide (ec > 1) && decide (nb > 0)) = true := by
      simp
      omega
    simp only [ghostIssues, hguard, if_true, if_neg hno]
    exact ghostColIssuesAux_length ec (chc.take ec) 0

/-- C4 witness: the theorem applied at a 2-column table whose first column
is a ghost — one WARN issue at column 0, none at column 1. -/
theorem c4_witness :
    ghostIssues 2 1 [false, true] =
      [{ severity := Sev.WARN, kind := "GHOST_COLUMN", col := some 0 }] := by
  have h := (c4_ghost_columns 2 1 [false, true] (by decide)).2.2.1
    (by decide) (by decide) (by decide)
  rw [h]; decide

/-! ### C5 — audit scenario -/

/-- C5 counterexample: auditing the scenario table produces no BAD
`GHOST_COLUMN` issue at all — the claim demanded exactly one, at column 0. -/
theorem c5_counterexample :
    (analyzeTable c5RawHtml (some c5Table)).filter
      (fun i => i.severity == Sev.BAD && i.kind == "GHOST_COLUMN") = [] := by decide

/-- C5 (amended): auditing the scenario table yields exactly one issue, a
WARN `GHOST_COLUMN` at column 0 — WARN, not BAD, because column 0 is not the
last expected column — and no issue for column 1. -/
theorem c5_audit_scenario :
    analyzeTable c5RawHtml (some c5Table) =
      [{ severity := Sev.WARN, kind := "GHOST_COLUMN", col := some 0 }] := by decide

/-! ### C2 — attempt bookkeeping of `repairTableWithGemini` -/

/-- The key-rotation loop only ever throws one message. -/
theorem keyCallGo_error_msg :
    ∀ (fuel : Nat) (s : List CallOutcome) (m : String),
      keyCallGo fuel s = Except.error m → m = "All OpenRouter keys failed." := by
  intro fuel
  induction fuel with
  | zero =>
      intro s m h
      simp only [keyCallGo, Except.error.injEq] at h
      exact h.symm
  | succ fuel ih =>
      intro s m h
      match s with
      | [] => exact ih [] m h
      | some r :: rest => simp [keyCallGo] at h
      | none :: rest => exact ih rest m h

/-- `keyCall` only ever throws the two configured messages. -/
theorem keyCall_error_msg (nk : Nat) (s : List CallOutcome) (m : String)
    (h : keyCall nk s = Except.error m) :
    m = "All OpenRouter keys failed." ∨
    m = "No OpenRouter keys configured. Set OPENROUTER_KEYS in .env" := by
  simp only [keyCall] at h
  split at h
  · right
    simp only [Except.error.injEq] at h
    exact h.symm
  · left
    exact keyCallGo_error_msg 3 s m h

/-- The provider interaction only ever throws the two configured messages,
never the exhausted-attempts message. -/
theorem iterCall_error_msg (strategy : Strategy) (ai : Bool) (nk : Nat)
    (g : CallOutcome) (attempts : Nat) (p : Provider) (orS : List CallOutcome)
    (m : String) (h : iterCall strategy ai nk g attempts p orS = Except.error m) :
    m = "All OpenRouter keys failed." ∨
    m = "No OpenRouter keys configured. Set OPENROUTER_KEYS in .env" := by
  have hmain : ∃ m2, keyCall nk orS = Except.error m2 ∧ m2 = m := by
    simp only [iterCall] at h
    rcases hkc : keyCall nk orS with m2 | v <;> rw [hkc] at h
    · refine ⟨m2, rfl, ?_⟩
      repeat' split at h
      all_goals simp_all
    · exfalso
      repeat' split at h
      all_goals simp_all
  obtain ⟨m2, hkc, hm⟩ := hmain
  subst hm
  exact keyCall_error_msg nk orS m2 hkc

/-- Log-shape invariant along the repair loop: a carried log numbered
`1..attempts` stays consecutively numbered, is bounded by 3 entries, is
present on success, and has exactly 3 entries on the exhausted-attempts
failure. -/
theorem repairLoop_log_shape (strategy : Strategy) (ai : Bool) (nk : Nat)
    (g : CallOutcome) :
    ∀ (fuel attempts : Nat) (p : Provider) (orS : List CallOutcome)
      (hu : TokenUsage) (logs : List RepairAttempt),
      attempts + fuel = 3 →
      logs.map (fun a => a.attemptNumber) = List.range' 1 attempts →
      (∀ l, (repairLoop strategy ai nk g fuel attempts p orS hu logs).log = some l →
          l.attempts.length ≤ 3 ∧
          l.attempts.map (fun a => a.attemptNumber) =
            List.range' 1 l.attempts.length) ∧
      ((repairLoop strategy ai nk g fuel attempts p orS hu logs).success = true →
          (repairLoop strategy ai nk g fuel attempts p orS hu logs).log.isSome = true) ∧
      ((repairLoop strategy ai nk g fuel attempts p orS hu logs).error =
          some "Validation failed after 3 attempts." →
        ∃ l, (repairLoop strategy ai nk g fuel attempts p orS hu logs).log = some l ∧
          l.attempts.length = 3) := by
  intro fuel
  induction fuel with
  | zero =>
      intro attempts p orS hu logs hsum hmap
      have hlen : logs.length = attempts := by
        have := congrArg List.length hmap
        simpa using this
      refine ⟨?_, ?_, ?_⟩
      · intro l hl
        simp only [repairLoop, Option.some.injEq] at hl
        subst hl
        constructor
        · simp only []
          omega
        · simpa [hlen] using hmap
      · intro hs
        simp [repairLoop] at hs
      · intro _
        refine ⟨_, rfl, ?_⟩
        show logs.length = 3
        omega
  | succ fuel ih =>
      intro attempts p orS hu logs hsum hmap
      have hlen : logs.length = attempts := by
        have := congrArg List.length hmap
        simpa using this
      rcases hc : iterCall strategy ai nk g attempts p orS with m | pro
      · refine ⟨?_, ?_, ?_⟩
        · intro l hl
          simp [repairLoop, hc] at hl
        · intro hs
          simp [repairLoop, hc] at hs
        · intro he
          simp only [repairLoop, hc, Option.some.injEq] at he
          rcases iterCall_error_msg strategy ai nk g attempts p orS m hc with h | h <;>
            rw [h] at he <;> exact absurd he (by decide)
      · obtain ⟨p2, r, orRest⟩ := pro
        have hmap2 :
            (logs ++ [mkAttempt attempts p2 r]).map (fun a => a.attemptNumber) =
              List.range' 1 (attempts + 1) := by
          rw [List.map_append, hmap, List.range'_concat]
          simp [mkAttempt, Nat.add_comm]
        have hlen2 : (logs ++ [mkAttempt attempts p2 r]).length = attempts + 1 := by
          simp [hlen]
        by_cases hv : (verifyRepairedTable (cleanupResponse r.1)).valid = true
        · refine ⟨?_, ?_, ?_⟩
          · intro l hl
            simp only [repairLoop, hc, hv, if_true, Option.some.injEq] at hl
            subst hl
            constructor
            · simp only [hlen2]
              omega
            · simpa [hlen2] using hmap2
          · intro _
            simp [repairLoop, hc, hv]
          · intro he
            simp [repairLoop, hc, hv] at he
        · have hrec := ih (attempts + 1) p2 orRest (addUsage hu r.2)
            (logs ++ [mkAttempt attempts p2 r]) (by omega) hmap2
          have hres :
              repairLoop strategy ai nk g (fuel + 1) attempts p orS hu logs =
              repairLoop strategy ai nk g fuel (attempts + 1) p2 orRest
                (addUsage hu r.2) (logs ++ [mkAttempt attempts p2 r]) := by
            simp [repairLoop, hc, hv]
          rw [hres]
          exact hrec

/-- The attempt log, when the result carries one, counts exactly the
attempts made beyond those already logged. -/
theorem repairLoop_log_count (strategy : Strategy) (ai : Bool) (nk : Nat)
    (g : CallOutcome) :
    ∀ (fuel attempts : Nat) (p : Provider) (orS : List CallOutcome)
      (hu : TokenUsage) (logs : List RepairAttempt) (l : RepairLog),
      (repairLoop strategy ai nk g fuel attempts p orS hu logs).log = some l →
      l.attempts.length = logs.length +
        attemptsMadeLoop strategy ai nk g fuel attempts p orS := by
  intro fuel
  induction fuel with
  | zero =>
      intro attempts p orS hu logs l hl
      simp only [repairLoop, Option.some.injEq] at hl
      subst hl
      simp [attemptsMadeLoop]
  | succ fuel ih =>
      intro attempts p orS hu logs l hl
      rcases hc : iterCall strategy ai nk g attempts p orS with m | pro
      · simp [repairLoop, hc] at hl
      · obtain ⟨p2, r, orRest⟩ := pro
        by_cases hv : (verifyRepairedTable (cleanupResponse r.1)).valid = true
        · simp only [repairLoop, hc, hv, if_true, Option.some.injEq] at hl
          subst hl
          simp [attemptsMadeLoop, hc, hv]
        · have hres :
              (repairLoop strategy ai nk g (fuel + 1) attempts p orS hu logs).log =
              (repairLoop strategy ai nk g fuel (attempts + 1) p2 orRest
                (addUsage hu r.2) (logs ++ [mkAttempt attempts p2 r])).log := by
            simp [repairLoop, hc, hv]
          rw [hres] at hl
          have hcount := ih (attempts + 1) p2 orRest (addUsage hu r.2) _ l hl
          rw [hcount]
          simp only [attemptsMadeLoop, hc, hv]
          simp
          omega

/-- C2 (amended): per invocation at most 3 verification attempts are made;
whenever the result carries an attempt log — always on success and on the
exhausted-attempts failure, the latter with exactly 3 entries — its entries
are numbered `1..n` consecutively and `n` equals the number of attempts
actually made; but the unrecoverable-call-error return carries no attempt
log at all. -/
theorem c2_attempt_log (strategy : Strategy) (ai : Bool) (nk : Nat)
    (g : CallOutcome) (orS : List CallOutcome) :
    (∀ l, (repairTableWithGemini strategy ai nk g orS).log = some l →
        l.attempts.length ≤ 3 ∧
        l.attempts.map (fun a => a.attemptNumber) =
          List.range' 1 l.attempts.length ∧
        l.attempts.length = attemptsMade strategy ai nk g orS) ∧
    ((repairTableWithGemini strategy ai nk g orS).success = true →
        (repairTableWithGemini strategy ai nk g orS).log.isSome = true) ∧
    ((repairTableWithGemini strategy ai nk g orS).error =
        some "Validation failed after 3 attempts." →
      ∃ l, (repairTableWithGemini strategy ai nk g orS).log = some l ∧
        l.attempts.length = 3) := by
  have hshape := repairLoop_log_shape strategy ai nk g 3 0
    (if strategy == Strategy.openrouter then Provider.openrouter else Provider.google)
    orS zeroUsage [] (by omega) (by simp)
  refine ⟨?_, hshape.2.1, hshape.2.2⟩
  intro l hl
  have h1 := hshape.1 l hl
  have h2 := repairLoop_log_count strategy ai nk g 3 0
    (if strategy == Strategy.openrouter then Provider.openrouter else Provider.google)
    orS zeroUsage [] l hl
  exact ⟨h1.1, h1.2, by simpa [attemptsMade, MAX_VERIFICATION_ATTEMPTS] using h2⟩

/-- C2 counterexample: under `hybrid` with a primary response that fails
validation and a pool whose three key calls all fail, two attempts are made
(the logged first attempt and the aborted second one) yet the failure result
carries no attempt log at all — `attemptLog.length == totalAttemptsMade`
fails on the unrecoverable-call-error path the claim includes. -/
theorem c2_counterexample :
    (repairTableWithGemini Strategy.hybrid true 2 (some ("nope", ⟨1, 1, 2⟩))
        [none, none, none]).log = none ∧
    (repairTableWithGemini Strategy.hybrid true 2 (some ("nope", ⟨1, 1, 2⟩))
        [none, none, none]).success = false ∧
    attemptsMade Strategy.hybrid true 2 (some ("nope", ⟨1, 1, 2⟩))
        [none, none, none] = 2 := by decide

/-- C2 witness: the amended theorem applied to a first-attempt success — the
result carries a log. -/
theorem c2_witness :
    (repairTableWithGemini Strategy.hybrid true 2
        (some ("<table><tr><td>a</td></tr></table>", ⟨10, 20, 30⟩)) []).log.isSome = true :=
  (c2_attempt_log Strategy.hybrid true 2
    (some ("<table><tr><td>a</td></tr></table>", ⟨10, 20, 30⟩)) []).2.1 (by decide)

/-! ### C7 — repair cost -/

/-- Success results carry the accumulated usage, the provider used, and the
cost the source computes from them. -/
theorem repairLoop_cost (strategy : Strategy) (ai : Bool) (nk : Nat)
    (g : CallOutcome) :
    ∀ (fuel attempts : Nat) (p : Provider) (orS : List CallOutcome)
      (hu : TokenUsage) (logs : List RepairAttempt),
      (repairLoop strategy ai nk g fuel attempts p orS hu logs).success = true →
      ∃ u pr, (repairLoop strategy ai nk g fuel attempts p orS hu logs).usage = some u ∧
        (repairLoop strategy ai nk g fuel attempts p orS hu logs).provider = some pr ∧
        (repairLoop strategy ai nk g fuel attempts p orS hu logs).costBRL =
          some (if pr == Provider.openrouter then calculateCost u else 0) := by
  intro fuel
  induction fuel with
  | zero =>
      intro attempts p orS hu logs hs
      simp [repairLoop] at hs
  | succ fuel ih =>
      intro attempts p orS hu logs hs
      rcases hc : iterCall strategy ai nk g attempts p orS with m | pro
      · simp [repairLoop, hc] at hs
      · obtain ⟨p2, r, orRest⟩ := pro
        by_cases hv : (verifyRepairedTable (cleanupResponse r.1)).valid = true
        · refine ⟨addUsage hu r.2, p2, ?_, ?_, ?_⟩ <;> simp [repairLoop, hc, hv]
        · have hres :
              repairLoop strategy ai nk g (fuel + 1) attempts p orS hu logs =
              repairLoop strategy ai nk g fuel (attempts + 1) p2 orRest
                (addUsage hu r.2) (logs ++ [mkAttempt attempts p2 r]) := by
            simp [repairLoop, hc, hv]
          rw [hres] at hs ⊢
          exact ih (attempts + 1) p2 orRest (addUsage hu r.2) _ hs

/-- C7: every successful invocation returns
`costBRL = (promptTokens/10^6 * 0.10 + completionTokens/10^6 * 0.40) * 6.00`
over the accumulated usage when the provider used is the rotating pool, and
exactly 0 when it is the primary provider. -/
theorem c7_cost (strategy : Strategy) (ai : Bool) (nk : Nat) (g : CallOutcome)
    (orS : List CallOutcome)
    (hs : (repairTableWithGemini strategy ai nk g orS).success = true) :
    ∃ u pr, (repairTableWithGemini strategy ai nk g orS).usage = some u ∧
      (repairTableWithGemini strategy ai nk g orS).provider = some pr ∧
      (repairTableWithGemini strategy ai nk g orS).costBRL = some
        (if pr == Provider.openrouter then
          ((u.promptTokens : ℚ) / 1000000 * (1 / 10) +
            (u.completionTokens : ℚ) / 1000000 * (2 / 5)) * 6
         else 0) := by
  simp only [repairTableWithGemini, MAX_VERIFICATION_ATTEMPTS] at hs ⊢
  obtain ⟨u, pr, h1, h2, h3⟩ := repairLoop_cost strategy ai nk g 3 0
    (if strategy == Strategy.openrouter then Provider.openrouter else Provider.google)
    orS zeroUsage [] hs
  refine ⟨u, pr, h1, h2, ?_⟩
  rw [h3]
  congr 1

/-- C7 witness: the theorem applied to a pool success with one million
prompt and two million completion tokens, and to a primary-provider success
whose cost is zero. -/
theorem c7_witness :
    ((repairTableWithGemini Strategy.openrouter true 2 none
        [some ("<table><tr><td>a</td></tr></table>", ⟨1000000, 2000000, 3000000⟩)]).success
        = true ∧
      ∃ u pr, (repairTableWithGemini Strategy.openrouter true 2 none
          [some ("<table><tr><td>a</td></tr></table>", ⟨1000000, 2000000, 3000000⟩)]).usage
          = some u ∧
        (repairTableWithGemini Strategy.openrouter true 2 none
          [some ("<table><tr><td>a</td></tr></table>", ⟨1000000, 2000000, 3000000⟩)]).provider
          = some pr ∧
        (repairTableWithGemini Strategy.openrouter true 2 none
          [some ("<table><tr><td>a</td></tr></table>", ⟨1000000, 2000000, 3000000⟩)]).costBRL
          = some (if pr == Provider.openrouter then
              ((u.promptTokens : ℚ) / 1000000 * (1 / 10) +
                (u.completionTokens : ℚ) / 1000000 * (2 / 5)) * 6
            else 0)) ∧
    (repairTableWithGemini Strategy.hybrid true 2
        (some ("<table><tr><td>a</td></tr></table>", ⟨10, 20, 30⟩)) []).costBRL = some 0 :=
  ⟨⟨by decide, c7_cost Strategy.openrouter true 2 none
      [some ("<table><tr><td>a</td></tr></table>", ⟨1000000, 2000000, 3000000⟩)]
      (by decide)⟩,
    by decide⟩

/-! ### C3 — backoff scheduling -/

/-- C3 counterexample: after the first failed attempt (`k = 1`) the task's
`nextRetryAt` is 5000·2¹ = 10000 ms away, but the queue redelivers the job
after 5000·2⁰ = 5000 ms — the two delays claimed equal differ by a factor
of 2. -/
theorem c3_counterexample :
    ¬ (onRepairFailure 0 3 = TaskAction.retry (5000 * 2 ^ 1) ∧
       bullmqRedeliveryDelayMs 1 = 5000 * 2 ^ 1) := by decide

/-- C3 (amended): when attempt `k` (1-based, `attempt = k - 1` in the
payload) fails with attempts remaining, the task's `nextRetryAt` is set
`5000 · 2^k` ms ahead, while the queue actually redelivers the job after
`5000 · 2^(k-1)` ms. -/
theorem c3_backoff (k maxAttempts : Nat) (hk : 1 ≤ k) (hlt : k < maxAttempts) :
    onRepairFailure (k - 1) maxAttempts = TaskAction.retry (5000 * 2 ^ k) ∧
    bullmqRedeliveryDelayMs k = 5000 * 2 ^ (k - 1) := by
  have hkk : k - 1 + 1 = k := by omega
  constructor
  · simp only [onRepairFailure, hkk, if_pos hlt, Nat.mul_comm]
  · rfl

/-- C3 witness: the amended theorem at the first failure of a task with the
default 3 attempts. -/
theorem c3_witness :
    onRepairFailure 0 3 = TaskAction.retry (5000 * 2 ^ 1) ∧
    bullmqRedeliveryDelayMs 1 = 5000 * 2 ^ 0 :=
  c3_backoff 1 3 (by decide) (by decide)

/-! ### C8 — key rotation -/

/-- The pointer after `n` calls is `(p0 + n) % k`. -/
theorem keyPointerAfter_eq (k p0 : Nat) (hp : p0 < k) :
    ∀ n, keyPointerAfter k p0 n = (p0 + n) % k := by
  intro n
  induction n with
  | zero => simp [keyPointerAfter, Nat.mod_eq_of_lt hp]
  | succ n ih =>
      simp only [keyPointerAfter, getNextKey, ih]
      rw [Nat.mod_add_mod, Nat.add_assoc]

/-- C8: with `k ≥ 2` configured keys and any pointer value `p0 < k`, the
selected indices are pairwise distinct over any window of `k` consecutive
calls, every index is selected within the first `k` calls, no index is ever
selected twice in a row, and the schedule repeats with period `k`. -/
theorem c8_round_robin (k p0 : Nat) (hk : 2 ≤ k) (hp : p0 < k) :
    (∀ i j, i < k → j < k → i ≠ j →
      selectedKeyIndex k p0 i ≠ selectedKeyIndex k p0 j) ∧
    (∀ v, v < k → ∃ i, i < k ∧ selectedKeyIndex k p0 i = v) ∧
    (∀ n, selectedKeyIndex k p0 (n + 1) ≠ selectedKeyIndex k p0 n) ∧
    (∀ n, selectedKeyIndex k p0 (n + k) = selectedKeyIndex k p0 n) := by
  have hk0 : 0 < k := by omega
  have hsel : ∀ n, selectedKeyIndex k p0 n = (p0 + n) % k := by
    intro n
    simp [selectedKeyIndex, getNextKey, keyPointerAfter_eq k p0 hp n]
  refine ⟨?_, ?_, ?_, ?_⟩
  · intro i j hi hj hne heq
    rw [hsel i, hsel j] at heq
    have hmod : i ≡ j [MOD k] := Nat.ModEq.add_left_cancel' p0 heq
    have : i % k = j % k := hmod
    rw [Nat.mod_eq_of_lt hi, Nat.mod_eq_of_lt hj] at this
    exact hne this
  · intro v hv
    refine ⟨(v + k - p0) % k, Nat.mod_lt _ hk0, ?_⟩
    rw [hsel]
    have h2 : p0 + (v + k - p0) % k ≡ p0 + (v + k - p0) [MOD k] :=
      Nat.ModEq.add_left p0 (Nat.mod_modEq _ _)
    have h3 : p0 + (v + k - p0) = v + k := by omega
    calc (p0 + (v + k - p0) % k) % k
        = (p0 + (v + k - p0)) % k := h2
      _ = (v + k) % k := by rw [h3]
      _ = v % k := Nat.add_mod_right v k
      _ = v := Nat.mod_eq_of_lt hv
  · intro n heq
    rw [hsel (n + 1), hsel n] at heq
    have hmod : p0 + n ≡ p0 + (n + 1) [MOD k] := by
      have : p0 + (n + 1) ≡ p0 + n [MOD k] := heq
      exact this.symm
    have hdvd : k ∣ (p0 + (n + 1)) - (p0 + n) :=
      (Nat.modEq_iff_dvd' (by omega)).mp hmod
    have : (p0 + (n + 1)) - (p0 + n) = 1 := by omega
    rw [this] at hdvd
    have := Nat.le_of_dvd (by omega) hdvd
    omega
  · intro n
    rw [hsel (n + k), hsel n]
    have : p0 + (n + k) = (p0 + n) + k := by omega
    rw [this, Nat.add_mod_right]

/-- C8 witness: the theorem applied with two keys and pointer 0. -/
theorem c8_witness :
    selectedKeyIndex 2 0 0 ≠ selectedKeyIndex 2 0 1 ∧
    selectedKeyIndex 2 0 2 = selectedKeyIndex 2 0 0 :=
  ⟨(c8_round_robin 2 0 (by decide) (by decide)).1 0 1 (by decide) (by decide) (by decide),
   (c8_round_robin 2 0 (by decide) (by decide)).2.2.2 0⟩

/-! ### C10 — `countExpectedCols` -/

/-- Attribute erasure on the children of a node. -/
theorem childListOf_strip (n : HNode) :
    childListOf (stripAttrsNode n) = stripAttrsList (childListOf n) := by
  cases n <;> simp [childListOf, stripAttrsNode, stripAttrsList]

/-- Attribute erasure commutes with the `tr` collection. -/
theorem trsInList_strip (l : List HNode) :
    trsInList (stripAttrsList l) = (trsInList l).map stripAttrsNode := by
  induction l using trsInList.induct with
  | case1 => simp [trsInList, stripAttrsList]
  | case2 s ns ih => simp [trsInList, stripAttrsList, ih]
  | case3 tag a c ns ihc ihns =>
      simp only [stripAttrsList, trsInList, List.map_append, ihc, ihns]
      split <;> rename_i hcond <;> simp [hcond, stripAttrsNode]

/-- Attribute erasure commutes with the cell collection. -/
theorem cellsInList_strip (l : List HNode) :
    cellsInList (stripAttrsList l) = (cellsInList l).map stripAttrsNode := by
  induction l using cellsInList.induct with
  | case1 => simp [cellsInList, stripAttrsList]
  | case2 s ns ih => simp [cellsInList, stripAttrsList, ih]
  | case3 tag a c ns ihc ihns =>
      simp only [stripAttrsList, cellsInList, List.map_append, ihc, ihns]
      split <;> rename_i hcond <;> simp [hcond, stripAttrsNode]

/-- Attribute erasure commutes with `querySelector('table')`. -/
theorem firstTable_strip (l : List HNode) :
    firstTable (stripAttrsList l) = (firstTable l).map stripAttrsNode := by
  induction l using firstTable.induct with
  | case1 => simp [firstTable, stripAttrsList]
  | case2 s ns ih => simp [firstTable, stripAttrsList, ih]
  | case3 a c ns => simp [firstTable, stripAttrsList, stripAttrsNode]
  | case4 tag a c ns htag t heq ihc =>
      simp [firstTable, stripAttrsList, htag, ihc, heq]
  | case5 tag a c ns htag heq ihc ihns =>
      simp [firstTable, stripAttrsList, htag, ihc, heq, ihns]

/-- The seed of a maximum fold never exceeds its result. -/
theorem init_le_foldl_max (l : List Nat) : ∀ a, a ≤ l.foldl max a := by
  induction l with
  | nil => intro a; simp
  | cons y ys ih =>
      intro a
      rw [List.foldl_cons]
      exact le_trans (le_max_left a y) (ih (max a y))

/-- Every member of the list is bounded by the maximum fold. -/
theorem mem_le_foldl_max (l : List Nat) :
    ∀ (a x : Nat), x ∈ l → x ≤ l.foldl max a := by
  induction l with
  | nil => intro a x hx; simp at hx
  | cons y ys ih =>
      intro a x hx
      rw [List.foldl_cons]
      rcases List.mem_cons.mp hx with h | h
      · subst h
        exact le_trans (le_max_right a x) (init_le_foldl_max ys (max a x))
      · exact ih (max a y) x h

/-- The maximum fold returns its seed or a member of the list. -/
theorem foldl_max_mem (l : List Nat) :
    ∀ a, l.foldl max a = a ∨ l.foldl max a ∈ l := by
  induction l with
  | nil => intro a; left; rfl
  | cons y ys ih =>
      intro a
      rw [List.foldl_cons]
      rcases ih (max a y) with h | h
      · rcases Nat.le_total a y with hy | hy
        · right
          rw [h, Nat.max_eq_right hy]
          exact List.mem_cons_self y ys
        · left
          rw [h, Nat.max_eq_left hy]
      · right
        exact List.mem_cons_of_mem y h

/-- The maximum fold over cell counts ignores attribute erasure. -/
theorem foldl_max_count_strip (l : List HNode) :
    ∀ b : Nat,
      l.foldl (fun mx tr => max mx (cellsInList (childListOf (stripAttrsNode tr))).length) b =
      l.foldl (fun mx tr => max mx (cellsInList (childListOf tr)).length) b := by
  induction l with
  | nil => intro b; rfl
  | cons y ys ih =>
      intro b
      rw [List.foldl_cons, List.foldl_cons, childListOf_strip, cellsInList_strip,
        List.length_map]
      exact ih _

/-- C10: `countExpectedCols` is total by construction, returns 0 exactly
from the no-table (or parse-failure) branch, otherwise returns the maximum
raw `td`/`th` count over the first table's `tr` rows, and reads no
attribute at all — in particular no `colspan`: erasing every attribute
leaves the result unchanged, so the expected-column hint fed to the Repair
Protocol does not use the Grid Builder's colspan arithmetic. -/
theorem c10_countExpectedCols (doc : List HNode) :
    (firstTable doc = none → countExpectedCols doc = 0) ∧
    (∀ t, firstTable doc = some t →
      (∀ tr ∈ trsInList (childListOf t),
        (cellsInList (childListOf tr)).length ≤ countExpectedCols doc) ∧
      (countExpectedCols doc = 0 ∨
        ∃ tr ∈ trsInList (childListOf t),
          (cellsInList (childListOf tr)).length = countExpectedCols doc)) ∧
    countExpectedCols (stripAttrsList doc) = countExpectedCols doc := by
  have hfold : ∀ t : HNode,
      (trsInList (childListOf t)).foldl
          (fun mx tr => max mx (cellsInList (childListOf tr)).length) 0 =
        ((trsInList (childListOf t)).map
          (fun tr => (cellsInList (childListOf tr)).length)).foldl max 0 := by
    intro t
    rw [List.foldl_map]
  refine ⟨?_, ?_, ?_⟩
  · intro h
    simp [countExpectedCols, h]
  · intro t ht
    constructor
    · intro tr htr
      simp only [countExpectedCols, ht, hfold]
      exact mem_le_foldl_max _ 0 _ (List.mem_map_of_mem _ htr)
    · simp only [countExpectedCols, ht, hfold]
      rcases foldl_max_mem
          ((trsInList (childListOf t)).map
            (fun tr => (cellsInList (childListOf tr)).length)) 0 with h | h
      · left; exact h
      · right
        obtain ⟨tr, htr, hc⟩ := List.mem_map.mp h
        exact ⟨tr, htr, hc⟩
  · cases hft : firstTable doc with
    | none =>
        have : firstTable (stripAttrsList doc) = none := by
          rw [firstTable_strip, hft]; rfl
        simp [countExpectedCols, hft, this]
    | some t =>
        have hs : firstTable (stripAttrsList doc) = some (stripAttrsNode t) := by
          rw [firstTable_strip, hft]; rfl
        simp only [countExpectedCols, hft, hs]
        rw [childListOf_strip, trsInList_strip, List.foldl_map]
        exact foldl_max_count_strip (trsInList (childListOf t)) 0

/-- C10 witness: a table with two rows of 2 and 3 raw cells and a stray
`colspan` attribute — the hint is 3 regardless of the attribute. -/
theorem c10_witness :
    countExpectedCols
        [HNode.elem "table" []
          [HNode.elem "tr" [] [HNode.elem "td" [("colspan", "5")] [],
             HNode.elem "td" [] []],
           HNode.elem "tr" [] [HNode.elem "td" [] [], HNode.elem "td" [] [],
             HNode.elem "th" [] []]]] = 3 ∧
    countExpectedCols [HNode.text "no table here"] = 0 := by
  constructor
  · simp [countExpectedCols, firstTable, trsInList, cellsInList, childListOf]
  · exact (c10_countExpectedCols [HNode.text "no table here"]).1 (by
      simp [firstTable])

/-! ### C9 — `domReplace` -/

/-- A node `querySelector('table')` returns is a `table` element. -/
theorem firstTable_shape (l : List HNode) :
    ∀ n, firstTable l = some n → ∃ a c, n = HNode.elem "table" a c := by
  induction l using firstTable.induct with
  | case1 => intro n h; simp [firstTable] at h
  | case2 s ns ih => intro n h; exact ih n (by simpa [firstTable] using h)
  | case3 a c ns =>
      intro n h
      simp only [firstTable, if_pos] at h
      exact ⟨a, c, ((Option.some.injEq _ _).mp h).symm⟩
  | case4 tag a c ns htag t heq ihc =>
      intro n h
      simp only [firstTable, if_neg htag, heq] at h
      obtain ⟨a2, c2, ht⟩ := ihc t heq
      exact ⟨a2, c2, ((Option.some.injEq _ _).mp h).symm.trans ht⟩
  | case5 tag a c ns htag heq ihc ihns =>
      intro n h
      simp only [firstTable, if_neg htag, heq] at h
      exact ihns n h

/-- When the countdown exceeds the top-level tables of a node list, the
substitution walk leaves the list unchanged and decreases the countdown by
the number of those tables. -/
theorem substTop_not_found (r : Option HNode) :
    ∀ (k : Nat) (l : List HNode), (topTables l).length ≤ k →
      substTop r k l = (l, some (k - (topTables l).length)) := by
  intro k l
  induction k, l using substTop.induct r with
  | case1 k => simp [substTop, topTables]
  | case2 k s ns ih =>
      intro h
      have h2 := ih (by simpa [topTables] using h)
      simp [substTop, topTables, h2]
  | case3 a c ns =>
      intro h
      simp [topTables] at h
  | case4 a c ns k' ih =>
      intro h
      have h2 : (topTables ns).length ≤ k' := by
        simp only [topTables, if_pos, List.length_cons] at h
        omega
      have harith : k' + 1 - ((topTables ns).length + 1) =
          k' - (topTables ns).length := by omega
      simp [substTop, topTables, ih h2, harith]
  | case5 k tag a c ns htag c2 heq ihc =>
      intro h
      exfalso
      have h1 : (topTables c).length ≤ k := by
        simp only [topTables, if_neg htag, List.length_append] at h
        omega
      rw [ihc h1] at heq
      simp at heq
  | case6 k tag a c ns htag c2 k2 heq ihc ihns =>
      intro h
      simp only [topTables, if_neg htag, List.length_append] at h
      have h1 : (topTables c).length ≤ k := by omega
      rw [ihc h1] at heq
      simp only [Prod.mk.injEq, Option.some.injEq] at heq
      obtain ⟨hc2, hk2⟩ := heq
      subst hc2
      subst hk2
      have h2 : (topTables ns).length ≤ k - (topTables c).length := by omega
      rw [substTop.eq_def]
      have harith : k - (topTables c).length - (topTables ns).length =
          k - ((topTables c).length + (topTables ns).length) := by omega
      simp [htag, ihc h1, ihns h2, topTables, harith]

/-- When the countdown lands inside the node list: the walk reports the
substitution done, the list of top-level tables gets its `k`-th entry
replaced by `r.toList` (replacement or removal), and everything outside the
top-level tables is untouched. -/
theorem substTop_found (r : Option HNode)
    (hr : r = none ∨ ∃ a c, r = some (HNode.elem "table" a c)) :
    ∀ (k : Nat) (l : List HNode), k < (topTables l).length →
      (substTop r k l).2 = none ∧
      topTables (substTop r k l).1 =
        (topTables l).take k ++ r.toList ++ (topTables l).drop (k + 1) ∧
      stripTop (substTop r k l).1 = stripTop l := by
  intro k l
  induction k, l using substTop.induct r with
  | case1 k =>
      intro h
      simp [topTables] at h
  | case2 k s ns ih =>
      intro h
      obtain ⟨h1, h2, h3⟩ := ih (by simpa [topTables] using h)
      refine ⟨?_, ?_, ?_⟩
      · simpa [substTop] using h1
      · simpa [substTop, topTables] using h2
      · simpa [substTop, stripTop] using h3
  | case3 a c ns =>
      intro h
      rcases hr with hrn | ⟨a2, c2, hrs⟩
      · subst hrn
        exact ⟨by simp [substTop], by simp [substTop, topTables],
          by simp [substTop, stripTop]⟩
      · subst hrs
        exact ⟨by simp [substTop], by simp [substTop, topTables],
          by simp [substTop, stripTop]⟩
  | case4 a c ns k' ih =>
      intro h
      have h' : k' < (topTables ns).length := by
        simp only [topTables, if_pos, List.length_cons] at h
        omega
      obtain ⟨h1, h2, h3⟩ := ih h'
      refine ⟨?_, ?_, ?_⟩
      · simpa [substTop] using h1
      · simp only [substTop, topTables, if_pos, List.take_succ_cons,
          List.drop_succ_cons, List.cons_append]
        rw [h2]
      · simpa [substTop, stripTop] using h3
  | case5 k tag a c ns htag c2 heq ihc =>
      intro h
      have hk : k < (topTables c).length := by
        by_contra hge
        rw [substTop_not_found r k c (by omega)] at heq
        simp at heq
      have h2 : topTables c2 =
          (topTables c).take k ++ r.toList ++ (topTables c).drop (k + 1) := by
        have hx := (ihc hk).2.1
        rw [heq] at hx
        simpa using hx
      have h3 : stripTop c2 = stripTop c := by
        have hx := (ihc hk).2.2
        rw [heq] at hx
        simpa using hx
      have e1 : k - (topTables c).length = 0 := by omega
      have e2 : k + 1 - (topTables c).length = 0 := by omega
      refine ⟨?_, ?_, ?_⟩
      · rw [substTop.eq_def]
        simp [htag, heq]
      · rw [substTop.eq_def]
        simp only [heq, if_neg htag]
        simp only [topTables, if_neg htag]
        rw [h2, List.take_append_eq_append_take, List.drop_append_eq_append_drop,
          e1, e2]
        simp [List.append_assoc]
      · rw [substTop.eq_def]
        simp only [heq, if_neg htag]
        simp only [stripTop, if_neg htag]
        rw [h3]
  | case6 k tag a c ns htag c2 k2 heq ihc ihns =>
      intro h
      have hnc : (topTables c).length ≤ k := by
        by_contra hlt
        have h1 := (ihc (by omega)).1
        rw [heq] at h1
        simp at h1
      have hnf := substTop_not_found r k c hnc
      rw [hnf] at heq
      simp only [Prod.mk.injEq, Option.some.injEq] at heq
      obtain ⟨hc2, hk2⟩ := heq
      subst hc2
      subst hk2
      have hlt2 : k - (topTables c).length < (topTables ns).length := by
        simp only [topTables, if_neg htag, List.length_append] at h
        omega
      obtain ⟨h1, h2, h3⟩ := ihns hlt2
      refine ⟨?_, ?_, ?_⟩
      · rw [substTop.eq_def]
        simp [htag, hnf, h1]
      · rw [substTop.eq_def]
        simp only [hnf, if_neg htag]
        simp only [topTables, if_neg htag]
        rw [h2, List.take_append_eq_append_take, List.drop_append_eq_append_drop,
          List.take_of_length_le hnc,
          List.drop_eq_nil_of_le (show (topTables c).length ≤ k + 1 by omega)]
        have he1 : k + 1 - (topTables c).length = k - (topTables c).length + 1 := by
          omega
        rw [he1]
        simp [List.append_assoc]
      · rw [substTop.eq_def]
        simp only [hnf, if_neg htag]
        simp only [stripTop, if_neg htag]
        rw [h3]

/-- C9: `domReplace` targets the `i`-th top-level table in document order:
an out-of-range index is a no-op; markup trimming to empty removes the
targeted table; otherwise the first `table` element of the repaired markup
replaces it wholesale (and with no table in the markup nothing changes);
in every case all content outside the top-level tables, and every
non-targeted top-level table, is unchanged. -/
theorem c9_domReplace (h : List HNode) (mRaw : String) (mP : List HNode) (i : Nat) :
    ((topTables h).length ≤ i → domReplace h mRaw mP i = h) ∧
    (i < (topTables h).length → jsTrim mRaw = "" →
      topTables (domReplace h mRaw mP i) = (topTables h).eraseIdx i ∧
      stripTop (domReplace h mRaw mP i) = stripTop h) ∧
    (i < (topTables h).length → jsTrim mRaw ≠ "" →
      ∀ nt, firstTable mP = some nt →
        topTables (domReplace h mRaw mP i) = (topTables h).set i nt ∧
        stripTop (domReplace h mRaw mP i) = stripTop h) ∧
    (i < (topTables h).length → jsTrim mRaw ≠ "" → firstTable mP = none →
      domReplace h mRaw mP i = h) := by
  refine ⟨?_, ?_, ?_, ?_⟩
  · intro hge
    simp [domReplace, hge]
  · intro hlt hempty
    have hfound := substTop_found none (Or.inl rfl) i h hlt
    have hres : domReplace h mRaw mP i = (substTop none i h).1 := by
      simp [domReplace, hempty]
      omega
    rw [hres]
    refine ⟨?_, hfound.2.2⟩
    rw [hfound.2.1, List.eraseIdx_eq_take_drop_succ]
    simp
  · intro hlt hne nt hnt
    obtain ⟨a, c, hshape⟩ := firstTable_shape mP nt hnt
    have hfound := substTop_found (some nt) (Or.inr ⟨a, c, by rw [hshape]⟩) i h hlt
    have hres : domReplace h mRaw mP i = (substTop (some nt) i h).1 := by
      simp [domReplace, hne, hnt]
      omega
    rw [hres]
    refine ⟨?_, hfound.2.2⟩
    rw [hfound.2.1, List.set_eq_take_cons_drop _ hlt]
    simp
  · intro hlt hne hnone
    simp [domReplace, hne, hnone]

/-- C9 witness: the theorem applied to a field with two top-level tables —
replacing table 0, removing table 0, and the out-of-range no-op at
index 2. -/
theorem c9_witness :
    (topTables (domReplace
        [HNode.elem "table" [] [HNode.text "old"], HNode.text "mid",
         HNode.elem "table" [] [HNode.text "keep"]]
        "<table><tr><td>new</td></tr></table>"
        [HNode.elem "table" [("id", "n")] []] 0) =
      [HNode.elem "table" [("id", "n")] [],
       HNode.elem "table" [] [HNode.text "keep"]]) ∧
    (topTables (domReplace
        [HNode.elem "table" [] [HNode.text "old"], HNode.text "mid",
         HNode.elem "table" [] [HNode.text "keep"]] "  " [] 0) =
      [HNode.elem "table" [] [HNode.text "keep"]]) ∧
    domReplace
        [HNode.elem "table" [] [HNode.text "old"], HNode.text "mid",
         HNode.elem "table" [] [HNode.text "keep"]] "<table></table>" [] 2 =
      [HNode.elem "table" [] [HNode.text "old"], HNode.text "mid",
       HNode.elem "table" [] [HNode.text "keep"]] := by
  refine ⟨?_, ?_, ?_⟩
  · have hx := ((c9_domReplace
        [HNode.elem "table" [] [HNode.text "old"], HNode.text "mid",
         HNode.elem "table" [] [HNode.text "keep"]]
        "<table><tr><td>new</td></tr></table>"
        [HNode.elem "table" [("id", "n")] []] 0).2.2.1
        (by simp [topTables]) (by decide)
        (HNode.elem "table" [("id", "n")] []) (by simp [firstTable])).1
    rw [hx]
    simp [topTables]
  · have hx := ((c9_domReplace
        [HNode.elem "table" [] [HNode.text "old"], HNode.text "mid",
         HNode.elem "table" [] [HNode.text "keep"]] "  " [] 0).2.1
        (by simp [topTables]) (by decide)).1
    rw [hx]
    simp [topTables]
  · exact (c9_domReplace
        [HNode.elem "table" [] [HNode.text "old"], HNode.text "mid",
         HNode.elem "table" [] [HNode.text "keep"]] "<table></table>" [] 2).1
      (by simp [topTables])

end TR
